import Mathlib

/-!
Verification of the buffer core of luminance (`src/luminance/src/buffer.rs`).

The core `Buffer<S, T>` is a thin handle over a backend capability `S`: every
operation of the handle delegates to the corresponding backend method. We
embed the backend capability as a structure of functions (`BufferBackend`),
the core methods as Lean functions parametrised by such a structure, and the
error taxonomy `BufferError` together with its `Display` formatting as they
appear in the source. Mutation through `&mut self` is embedded as explicit
state passing: a Rust method `fn f(&mut self, ...) -> Result<(), BufferError>`
becomes a Lean function returning `Except BufferError R`, the new
representation on success (on failure the representation is unchanged, so no
state needs returning).

The concrete backend implementations of the repository are not part of the
shown core; where a claim depends on backend behaviour, a reference backend
is modelled from the specification (`listBackend`).
-/

/-- Buffer errors, from `BufferError` in `src/luminance/src/buffer.rs`. -/
inductive BufferError where
  | Overflow (index : Nat) (buffer_len : Nat)
  | TooFewValues (provided_len : Nat) (buffer_len : Nat)
  | TooManyValues (provided_len : Nat) (buffer_len : Nat)
  | MapFailed
deriving DecidableEq, Repr

/-- The backend buffer capability (the trait `backend::buffer::Buffer`),
embedded as a structure of functions over a representation type `R` and an
element type `T`. Methods taking `&mut Self::BufferRepr` return the new
representation on success. -/
structure BufferBackend (R T : Type) where
  new_buffer : Nat → Except BufferError R
  from_slice : List T → Except BufferError R
  repeat_ : Nat → T → Except BufferError R
  at_ : R → Nat → Option T
  whole : R → List T
  set : R → Nat → T → Except BufferError R
  write_whole : R → List T → Except BufferError R
  clear : R → T → Except BufferError R
  len : R → Nat

/-- The backend slice capability (the trait `backend::buffer::BufferSlice`):
mapping a representation into a host view. `slice_buffer` takes
`&mut Self::BufferRepr`, so it returns the (possibly updated) representation
together with the slice representation. -/
structure BufferSliceBackend (R SR T : Type) where
  slice_buffer : R → Except BufferError (R × SR)
  slice_buffer_mut : R → Except BufferError (R × SR)
  obtain_slice : SR → Except BufferError (List T)
  obtain_slice_mut : SR → Except BufferError (List T)

namespace Buffer

variable {R SR T : Type}

/-- Core `Buffer::new`: delegates to `ctx.backend().new_buffer(len)`. -/
def new (S : BufferBackend R T) (len : Nat) : Except BufferError R :=
  S.new_buffer len

/-- Core `Buffer::from_slice`: delegates to `ctx.backend().from_slice(slice)`. -/
def from_slice (S : BufferBackend R T) (slice : List T) : Except BufferError R :=
  S.from_slice slice

/-- Core `Buffer::repeat`: delegates to `ctx.backend().repeat(len, value)`. -/
def repeat_ (S : BufferBackend R T) (len : Nat) (value : T) : Except BufferError R :=
  S.repeat_ len value

/-- Core `Buffer::at`: delegates to `S::at(&self.repr, i)`. Its result type is
`Option T`: out-of-range access yields `none`, never a `BufferError`. -/
def at_ (S : BufferBackend R T) (repr : R) (i : Nat) : Option T :=
  S.at_ repr i

/-- Core `Buffer::whole`: delegates to `S::whole(&self.repr)`. -/
def whole (S : BufferBackend R T) (repr : R) : List T :=
  S.whole repr

/-- Core `Buffer::set`: delegates to `S::set(&mut self.repr, i, x)`. -/
def set (S : BufferBackend R T) (repr : R) (i : Nat) (x : T) : Except BufferError R :=
  S.set repr i x

/-- Core `Buffer::write_whole`: delegates to
`S::write_whole(&mut self.repr, values)`. -/
def write_whole (S : BufferBackend R T) (repr : R) (values : List T) :
    Except BufferError R :=
  S.write_whole repr values

/-- Core `Buffer::clear`: delegates to `S::clear(&mut self.repr, x)`. -/
def clear (S : BufferBackend R T) (repr : R) (x : T) : Except BufferError R :=
  S.clear repr x

/-- Core `Buffer::len`: delegates to `S::len(&self.repr)`. -/
def len (S : BufferBackend R T) (repr : R) : Nat :=
  S.len repr

/-- Core `Buffer::is_empty`: `self.len() == 0`. -/
def is_empty (S : BufferBackend R T) (repr : R) : Bool :=
  len S repr == 0

/-- Core `Buffer::slice`: delegates to `S::slice_buffer(&mut self.repr)` and
wraps the slice representation. -/
def slice (S : BufferSliceBackend R SR T) (repr : R) :
    Except BufferError (R × SR) :=
  S.slice_buffer repr

/-- Core `Buffer::slice_mut`: delegates to
`S::slice_buffer_mut(&mut self.repr)` and wraps the slice representation. -/
def slice_mut (S : BufferSliceBackend R SR T) (repr : R) :
    Except BufferError (R × SR) :=
  S.slice_buffer_mut repr

end Buffer

/-- Modelled from the spec: the backend capability implementation is absent
from the shown core (only the delegating handle lives in
`src/luminance/src/buffer.rs`), so the reference backend follows the
specification of each operation. The representation is the list of elements:
`set` fails with `Overflow{index, buffer_len}` when `index ≥ length`,
`write_whole` fails with `TooFewValues` / `TooManyValues` unless the provided
length matches exactly, `clear` sets every element, `repeat` builds `len`
copies, `at` returns the element or `none` out of range, `whole` copies the
contents, `len` reports the fixed length. -/
def listBackend (T : Type) [Inhabited T] : BufferBackend (List T) T where
  new_buffer n := .ok (List.replicate n default)
  from_slice l := .ok l
  repeat_ n v := .ok (List.replicate n v)
  at_ r i := r.get? i
  whole r := r
  set r i x :=
    if i < r.length then .ok (r.set i x) else .error (.Overflow i r.length)
  write_whole r vs :=
    if vs.length < r.length then .error (.TooFewValues vs.length r.length)
    else if r.length < vs.length then .error (.TooManyValues vs.length r.length)
    else .ok vs
  clear r x := .ok (r.map (fun _ => x))
  len r := r.length

/-- Modelled from the spec: the reference slice capability. Mapping exposes
the buffer contents as the host view and leaves the representation intact. -/
def listSliceBackend (T : Type) : BufferSliceBackend (List T) (List T) T where
  slice_buffer r := .ok (r, r)
  slice_buffer_mut r := .ok (r, r)
  obtain_slice sr := .ok sr
  obtain_slice_mut sr := .ok sr

/-- `Display` formatting of `BufferError`, from
`impl fmt::Display for BufferError` in `src/luminance/src/buffer.rs`. -/
def BufferError.display : BufferError → String
  | .Overflow index buffer_len =>
      "buffer overflow (index = " ++ toString index ++ ", size = " ++
        toString buffer_len ++ ")"
  | .TooFewValues provided_len buffer_len =>
      "too few values passed to the buffer (nb = " ++ toString provided_len ++
        ", size = " ++ toString buffer_len ++ ")"
  | .TooManyValues provided_len buffer_len =>
      "too many values passed to the buffer (nb = " ++ toString provided_len ++
        ", size = " ++ toString buffer_len ++ ")"
  | .MapFailed => "buffer mapping failed"

/-- A backend capability that accepts every write unconditionally: `set` and
`write_whole` succeed without touching the representation and without any
bounds or length check. It satisfies the capability interface, so the core
handle can be instantiated with it. -/
def passBackend : BufferBackend (List Nat) Nat where
  new_buffer n := .ok (List.replicate n 0)
  from_slice l := .ok l
  repeat_ n v := .ok (List.replicate n v)
  at_ r i := r.get? i
  whole r := r
  set r _ _ := .ok r
  write_whole r _ := .ok r
  clear r _ := .ok r
  len r := r.length

/-- A backend capability instrumented with an invocation counter: the
representation pairs the elements with the number of mutating backend calls
received, so a core-level call that reaches the backend is observable in the
resulting state. -/
def countingBackend : BufferBackend (List Nat × Nat) Nat where
  new_buffer n := .ok (List.replicate n 0, 0)
  from_slice l := .ok (l, 0)
  repeat_ n v := .ok (List.replicate n v, 0)
  at_ r i := r.1.get? i
  whole r := r.1
  set r _ _ := .ok (r.1, r.2 + 1)
  write_whole r _ := .ok (r.1, r.2 + 1)
  clear r _ := .ok (r.1, r.2 + 1)
  len r := r.1.length

/-- Claim C1: for every buffer of length N and every host sequence of length
N, `write_whole(values)` succeeds and a subsequent `whole()` returns a
sequence equal to `values`. -/
theorem C1_write_whole_whole_round_trip {T : Type} [Inhabited T]
    (buf values : List T) (h : values.length = buf.length) :
    ∃ r, Buffer.write_whole (listBackend T) buf values = .ok r ∧
      Buffer.whole (listBackend T) r = values := by
  refine ⟨values, ?_, rfl⟩
  simp [Buffer.write_whole, listBackend, h]

/-- Witness for C1 at a concrete buffer of length 3. -/
theorem C1_witness :
    ([4, 5, 6] : List Nat).length = ([1, 2, 3] : List Nat).length ∧
      ∃ r, Buffer.write_whole (listBackend Nat) [1, 2, 3] [4, 5, 6] = .ok r ∧
        Buffer.whole (listBackend Nat) r = [4, 5, 6] :=
  ⟨rfl, C1_write_whole_whole_round_trip [1, 2, 3] [4, 5, 6] rfl⟩

/-- Claim C2 counterexample: the core performs no validation before
delegating. With a backend that performs no check, the core's `set 5` on a
length-3 buffer returns success instead of the claimed
`Overflow{index: 5, buffer_len: 3}` error, and with a call-counting backend
the backend `set` operation is invoked (the counter increments) on the
out-of-range index, contradicting "the core returns the error without
invoking the backend operation". -/
theorem C2_counterexample :
    Buffer.set passBackend [1, 2, 3] 5 9 ≠ .error (.Overflow 5 3) ∧
      Buffer.set countingBackend ([1, 2, 3], 0) 5 9 = .ok ([1, 2, 3], 1) := by
  exact ⟨by simp [Buffer.set, passBackend], rfl⟩

/-- Claim C2 (amended): the core performs no bounds or length validation
itself: `set` and `write_whole` forward every call, validated or not,
directly to the backend capability, which is responsible for the index and
length checks; in particular the backend `set` operation is invoked for
every index, out-of-range ones included, as the instrumented counting
backend records. -/
theorem C2_amended_core_delegates {R T : Type} (S : BufferBackend R T)
    (repr : R) (i : Nat) (x : T) (values : List T) :
    Buffer.set S repr i x = S.set repr i x ∧
      Buffer.write_whole S repr values = S.write_whole repr values ∧
      ∀ l c, Buffer.set countingBackend (l, c) i 0 = .ok (l, c + 1) :=
  ⟨rfl, rfl, fun _ _ => rfl⟩

/-- Claim C3: `set(i, x)` on a length-N buffer fails with
`Overflow{index: i, buffer_len: N}` exactly when `i ≥ N`, succeeds exactly
when `i < N`, and in particular `set(N, x)` returns
`Err(Overflow{index: N, buffer_len: N})`. -/
theorem C3_set_overflow_iff {T : Type} [Inhabited T]
    (buf : List T) (i : Nat) (x : T) :
    (Buffer.set (listBackend T) buf i x = .error (.Overflow i buf.length) ↔
        buf.length ≤ i) ∧
      ((∃ r, Buffer.set (listBackend T) buf i x = .ok r) ↔ i < buf.length) ∧
      Buffer.set (listBackend T) buf buf.length x =
        .error (.Overflow buf.length buf.length) := by
  refine ⟨⟨fun h => ?_, fun h => ?_⟩, ⟨fun h => ?_, fun h => ?_⟩, ?_⟩
  · by_contra hlt
    push_neg at hlt
    simp [Buffer.set, listBackend, hlt] at h
  · simp [Buffer.set, listBackend, Nat.not_lt.mpr h]
  · obtain ⟨r, hr⟩ := h
    by_contra hge
    push_neg at hge
    simp [Buffer.set, listBackend, Nat.not_lt.mpr hge] at hr
  · exact ⟨buf.set i x, by simp [Buffer.set, listBackend, h]⟩
  · simp [Buffer.set, listBackend]

/-- Claim C4: `write_whole` on a length-N buffer with an input of length M
fails with `TooFewValues{provided_len: M, buffer_len: N}` exactly when
`M < N`, with `TooManyValues{provided_len: M, buffer_len: N}` exactly when
`M > N`, and succeeds exactly when `M = N`. -/
theorem C4_write_whole_length_check {T : Type} [Inhabited T]
    (buf values : List T) :
    (Buffer.write_whole (listBackend T) buf values =
          .error (.TooFewValues values.length buf.length) ↔
        values.length < buf.length) ∧
      (Buffer.write_whole (listBackend T) buf values =
          .error (.TooManyValues values.length buf.length) ↔
        buf.length < values.length) ∧
      ((∃ r, Buffer.write_whole (listBackend T) buf values = .ok r) ↔
        values.length = buf.length) := by
  rcases Nat.lt_trichotomy values.length buf.length with h | h | h
  · refine ⟨⟨fun _ => h, fun _ => ?_⟩, ⟨fun hc => ?_, fun hc => ?_⟩, ?_, ?_⟩
    · simp [Buffer.write_whole, listBackend, h]
    · simp [Buffer.write_whole, listBackend, h] at hc
    · exact absurd hc (Nat.lt_asymm h)
    · rintro ⟨r, hr⟩
      simp [Buffer.write_whole, listBackend, h] at hr
    · intro he
      exact absurd he (Nat.ne_of_lt h)
  · refine ⟨⟨fun hc => ?_, fun hc => ?_⟩, ⟨fun hc => ?_, fun hc => ?_⟩, fun _ => h, fun _ => ?_⟩
    · simp [Buffer.write_whole, listBackend, h, Nat.lt_irrefl] at hc
    · exact absurd hc (h ▸ Nat.lt_irrefl _)
    · simp [Buffer.write_whole, listBackend, h, Nat.lt_irrefl] at hc
    · exact absurd hc (h ▸ Nat.lt_irrefl _)
    · exact ⟨values, by simp [Buffer.write_whole, listBackend, h, Nat.lt_irrefl]⟩
  · refine ⟨⟨fun hc => ?_, fun hc => ?_⟩, ⟨fun _ => h, fun _ => ?_⟩, ?_, ?_⟩
    · simp [Buffer.write_whole, listBackend, h, Nat.lt_asymm h] at hc
    · exact absurd hc (Nat.lt_asymm h)
    · simp [Buffer.write_whole, listBackend, h, Nat.lt_asymm h]
    · rintro ⟨r, hr⟩
      simp [Buffer.write_whole, listBackend, h, Nat.lt_asymm h] at hr
    · intro he
      exact absurd he.symm (Nat.ne_of_lt h)

/-- Claim C5: after a successful `set(i, x)`, `at(i)` returns `Some(x)` and
`at(j)` is unchanged for every other index `j`. -/
theorem C5_set_then_at {T : Type} [Inhabited T]
    (buf : List T) (i : Nat) (x : T) (r : List T)
    (h : Buffer.set (listBackend T) buf i x = .ok r) :
    Buffer.at_ (listBackend T) r i = some x ∧
      ∀ j, j ≠ i →
        Buffer.at_ (listBackend T) r j = Buffer.at_ (listBackend T) buf j := by
  by_cases hi : i < buf.length
  · simp only [Buffer.set, listBackend, if_pos hi, Except.ok.injEq] at h
    subst h
    refine ⟨?_, fun j hj => ?_⟩
    · simp only [Buffer.at_, listBackend]
      exact List.get?_set_eq_of_lt x hi
    · simp only [Buffer.at_, listBackend]
      exact List.get?_set_ne x buf (Ne.symm hj)
  · simp [Buffer.set, listBackend, hi] at h

/-- Witness for C5 at the concrete buffer `[1, 2, 3]` with `set(1, 9)`. -/
theorem C5_witness :
    Buffer.at_ (listBackend Nat) [1, 9, 3] 1 = some 9 ∧
      Buffer.at_ (listBackend Nat) [1, 9, 3] 0 =
        Buffer.at_ (listBackend Nat) [1, 2, 3] 0 := by
  have h := C5_set_then_at [1, 2, 3] 1 9 [1, 9, 3] rfl
  exact ⟨h.1, h.2 0 (by decide)⟩

/-- Claim C6: `at(i)` returns `None` exactly when `i ≥ N` and `Some` of the
element at `i` when `i < N`; its result type is `Option`, so no `BufferError`
is ever produced for out-of-range access. -/
theorem C6_at_in_range {T : Type} [Inhabited T] (buf : List T) (i : Nat) :
    (Buffer.at_ (listBackend T) buf i = none ↔ buf.length ≤ i) ∧
      ∀ h : i < buf.length,
        Buffer.at_ (listBackend T) buf i = some (buf.get ⟨i, h⟩) := by
  refine ⟨?_, fun h => ?_⟩
  · simp only [Buffer.at_, listBackend]
    exact List.get?_eq_none
  · simp only [Buffer.at_, listBackend]
    exact List.get?_eq_get h

/-- Witness for C6 at the concrete buffer `[1, 2, 3]`: index 5 is out of
range and index 1 yields the stored element. -/
theorem C6_witness :
    Buffer.at_ (listBackend Nat) [1, 2, 3] 5 = none ∧
      Buffer.at_ (listBackend Nat) [1, 2, 3] 1 = some 2 := by
  refine ⟨(C6_at_in_range [1, 2, 3] 5).1.mpr (by decide), ?_⟩
  simpa using (C6_at_in_range ([1, 2, 3] : List Nat) 1).2 (by decide)

/-- Claim C7: constructing a buffer with `repeat(len, v)` succeeds and a
subsequent `whole()` returns exactly `len` copies of `v`. -/
theorem C7_repeat_whole {T : Type} [Inhabited T] (len : Nat) (v : T) :
    ∃ r, Buffer.repeat_ (listBackend T) len v = .ok r ∧
      Buffer.whole (listBackend T) r = List.replicate len v :=
  ⟨List.replicate len v, rfl, rfl⟩

/-- Claim C8: after `clear(v)` succeeds on a buffer of length N, `whole()`
returns N copies of `v`. -/
theorem C8_clear_whole {T : Type} [Inhabited T] (buf : List T) (v : T) :
    ∃ r, Buffer.clear (listBackend T) buf v = .ok r ∧
      Buffer.whole (listBackend T) r = List.replicate buf.length v := by
  refine ⟨buf.map (fun _ => v), rfl, ?_⟩
  simp [Buffer.whole, listBackend, List.map_const']

/-- Claim C9: the length reported by `len()` is preserved by every operation,
whether it succeeds or fails: `set`, `write_whole` and `clear` leave the
length of the representation unchanged on success (failure returns the error
with the representation untouched by the state-passing embedding), `at`,
`whole` and `len` are pure queries, and `slice` / `slice_mut` leave the
representation's length unchanged. -/
theorem C9_len_fixed {T : Type} [Inhabited T]
    (buf : List T) (i : Nat) (x v : T) (values : List T) :
    (∀ r, Buffer.set (listBackend T) buf i x = .ok r →
        Buffer.len (listBackend T) r = Buffer.len (listBackend T) buf) ∧
      (∀ r, Buffer.write_whole (listBackend T) buf values = .ok r →
        Buffer.len (listBackend T) r = Buffer.len (listBackend T) buf) ∧
      (∀ r, Buffer.clear (listBackend T) buf v = .ok r →
        Buffer.len (listBackend T) r = Buffer.len (listBackend T) buf) ∧
      (∀ r sr, Buffer.slice (listSliceBackend T) buf = .ok (r, sr) →
        Buffer.len (listBackend T) r = Buffer.len (listBackend T) buf) ∧
      (∀ r sr, Buffer.slice_mut (listSliceBackend T) buf = .ok (r, sr) →
        Buffer.len (listBackend T) r = Buffer.len (listBackend T) buf) := by
  refine ⟨fun r hr => ?_, fun r hr => ?_, fun r hr => ?_,
    fun r sr hr => ?_, fun r sr hr => ?_⟩
  · by_cases hi : i < buf.length
    · simp only [Buffer.set, listBackend, if_pos hi, Except.ok.injEq] at hr
      subst hr
      simp [Buffer.len, listBackend]
    · simp [Buffer.set, listBackend, hi] at hr
  · by_cases hlt : values.length < buf.length
    · simp [Buffer.write_whole, listBackend, hlt] at hr
    · by_cases hgt : buf.length < values.length
      · simp [Buffer.write_whole, listBackend, hlt, hgt] at hr
      · simp only [Buffer.write_whole, listBackend, if_neg hlt, if_neg hgt,
          Except.ok.injEq] at hr
        subst hr
        simp only [Buffer.len, listBackend]
        exact Nat.le_antisymm (Nat.le_of_not_lt hgt) (Nat.le_of_not_lt hlt)
  · simp only [Buffer.clear, listBackend, Except.ok.injEq] at hr
    subst hr
    simp [Buffer.len, listBackend]
  · simp only [Buffer.slice, listSliceBackend, Except.ok.injEq,
      Prod.mk.injEq] at hr
    rw [hr.1]
  · simp only [Buffer.slice_mut, listSliceBackend, Except.ok.injEq,
      Prod.mk.injEq] at hr
    rw [hr.1]

/-- Witness for C9 at the concrete buffer `[1, 2, 3]`, exercising `set`,
`write_whole`, `clear`, `slice` and `slice_mut`. -/
theorem C9_witness :
    Buffer.len (listBackend Nat) [1, 9, 3] = Buffer.len (listBackend Nat) [1, 2, 3] ∧
      Buffer.len (listBackend Nat) [4, 5, 6] = Buffer.len (listBackend Nat) [1, 2, 3] ∧
      Buffer.len (listBackend Nat) [0, 0, 0] = Buffer.len (listBackend Nat) [1, 2, 3] ∧
      Buffer.len (listBackend Nat) [1, 2, 3] = Buffer.len (listBackend Nat) [1, 2, 3] := by
  have h := C9_len_fixed ([1, 2, 3] : List Nat) 1 9 0 [4, 5, 6]
  exact ⟨h.1 [1, 9, 3] rfl, h.2.1 [4, 5, 6] rfl,
    h.2.2.1 [0, 0, 0] rfl, h.2.2.2.1 [1, 2, 3] [1, 2, 3] rfl⟩

/-- Claim C10: the `Display` formatting of `BufferError` is a total function
of the variant and its fields, rendering `Overflow`, `TooFewValues`,
`TooManyValues` and `MapFailed` to the exact diagnostic strings of the
source. -/
theorem C10_display_format (i n p q m : Nat) :
    BufferError.display (.Overflow i n) =
        "buffer overflow (index = " ++ toString i ++ ", size = " ++
          toString n ++ ")" ∧
      BufferError.display (.TooFewValues p n) =
        "too few values passed to the buffer (nb = " ++ toString p ++
          ", size = " ++ toString n ++ ")" ∧
      BufferError.display (.TooManyValues q m) =
        "too many values passed to the buffer (nb = " ++ toString q ++
          ", size = " ++ toString m ++ ")" ∧
      BufferError.display .MapFailed = "buffer mapping failed" :=
  ⟨rfl, rfl, rfl, rfl⟩
